import Mathlib

/-
  Verification of the CodeJamRemix web-server request pipeline
  (src/WebServer/__init__.py): a falcon-based JSON API with a
  connection-scoping middleware, an authentication gate, a response
  formatter, route dispatch and error translation, plus the peewee
  data model (User / Problem / Solution) and the derived score.

  The Python source is shallowly embedded: each middleware hook,
  resource responder and model method becomes an executable Lean
  definition; the falcon dispatch order (process_request of each
  middleware in declared order, then routing, then the responder,
  then process_response in reverse order) is reproduced by `dispatch`.
-/

namespace WebServer

/-! ## JSON values

Structured payloads handed to `json.dumps` by the response formatter.
Strings are kept as `List Char` to mirror serialisation character by
character. -/

/-- JSON value as produced by the resource responders and consumed by
`json.dumps` in `ResponseFormatMiddleware.process_response`. -/
inductive Json where
  | null
  | bool (b : Bool)
  | num (n : Int)
  | str (s : List Char)
  | arr (xs : List Json)
  | obj (ms : List (List Char × Json))
deriving Repr

/-! ## HTTP faults

Embedding of the `falcon.HTTPError` values raised in the source
(`HTTPUnauthorized`, `HTTPNotFound`, `HTTPMethodNotAllowed`,
`HTTPInternalServerError`). -/

/-- Structured HTTP fault: status code, optional title and description,
auth challenges and documentation link, as carried by falcon's
HTTPError subclasses. -/
structure HTTPError where
  status : Nat
  title : Option String
  description : Option String
  challenges : List String
  href : Option String
deriving Repr, DecidableEq

/-- The `HTTPUnauthorized` raised at WebServer/__init__.py:97 when the
Authorization header is present. -/
def authTokenRequired : HTTPError :=
  { status := 401
    title := some "Auth token required"
    description := some "Please provide an auth token as part of the request."
    challenges := ["Token type=\"Fernet\""]
    href := some "http://docs.example.com/auth" }

/-- The `HTTPUnauthorized` raised at WebServer/__init__.py:106 when
`_token_is_valid` fails. -/
def authenticationRequired : HTTPError :=
  { status := 401
    title := some "Authentication required"
    description := some "The provided auth token is not valid. Please request a new token and try again."
    challenges := ["Token type=\"Fernet\""]
    href := some "http://docs.example.com/auth" }

/-- `falcon.HTTPNotFound()` as raised by `DoesNotExistHandler.handle`
and by falcon's default responder for unmatched routes. -/
def httpNotFound : HTTPError :=
  { status := 404, title := none, description := none, challenges := [], href := none }

/-- `falcon.HTTPMethodNotAllowed` raised by falcon's default responder
when a matched resource lacks an `on_<method>` responder. -/
def methodNotAllowed : HTTPError :=
  { status := 405, title := none, description := none, challenges := [], href := none }

/-- The `HTTPInternalServerError` raised by `CatchAllHandler.handle`
with its fixed user-facing message. -/
def internalServerError : HTTPError :=
  { status := 500
    title := some "Internal server error."
    description := some "An internal error occurred. If this problem persists, please contact us."
    challenges := []
    href := none }

/-! ## Auth middleware

`AuthMiddleware.process_request` reads the `Authorization` and
`Account-Id` headers (`request.get_header` yields `None` for an absent
header, i.e. `Option.none` here, and the raw string value otherwise). -/

namespace AuthMiddleware

/-- Embedding of `AuthMiddleware._token_is_valid`:
`return token is not None and account_id is not None`. -/
def token_is_valid (token account_id : Option String) : Bool :=
  token.isSome && account_id.isSome

/-- Embedding of `AuthMiddleware.process_request`: returns the
`HTTPUnauthorized` fault it raises, or `none` when it falls through.
First check: `if token is not None` raise "Auth token required";
second check: `if not self._token_is_valid(token, account_id)` raise
"Authentication required". -/
def process_request (token account_id : Option String) : Option HTTPError :=
  if token.isSome then
    some authTokenRequired
  else if !(token_is_valid token account_id) then
    some authenticationRequired
  else
    none

end AuthMiddleware

/-- Modelled from the spec: "a token/account pair is considered valid
only if both are non-empty values" — a header counts only when present
with a non-empty string. Stated for comparison with the source's
`AuthMiddleware.token_is_valid`. -/
def nonEmptyHeader : Option String → Bool
  | none => false
  | some s => !(s == "")

/-! ## Resources and routing -/

/-- HTTP methods exercised by the registered resources. -/
inductive Method where
  | GET
  | POST
deriving Repr, DecidableEq

/-- The resource classes defined in the source. `logout` corresponds to
`LogoutResource`, which is defined at WebServer/__init__.py:159 but
never registered by `register_routes`. -/
inductive Resource where
  | root
  | login
  | logout
  | problems
  | problem
  | competitors
  | competitor
deriving Repr, DecidableEq

/-- An inbound request: method, exact path, the two auth headers and
the `id` query parameter used by `UserResource.on_get`. -/
structure Request where
  method : Method
  path : String
  authorization : Option String
  accountId : Option String
  queryId : Option String
deriving Repr

/-- A responder's result before formatting: `response.status` and the
structured `response.body`. -/
structure Response where
  status : Nat
  body : Json
deriving Repr

/-- Faults that can escape a responder: a structured falcon
`HTTPError`, peewee's `DoesNotExist`, or any other Python exception
(carrying a note of what it is). -/
inductive Fault where
  | http (e : HTTPError)
  | doesNotExist
  | other (note : String)
deriving Repr

/-- Embedding of `WebApi.register_routes` (WebServer/__init__.py:207):
the exact-path route table. `/logout` is absent: `LogoutResource` is
never wired up. -/
def routes : List (String × Resource) :=
  [ ("/", Resource.root)
  , ("/login", Resource.login)
  , ("/problems", Resource.problems)
  , ("/problem", Resource.problem)
  , ("/competitors", Resource.competitors)
  , ("/competitor", Resource.competitor) ]

/-- Exact-path route lookup, as performed by falcon's router over the
table built by `register_routes`. -/
def lookupRoute (path : String) : Option Resource :=
  (routes.find? (fun e => e.1 = path)).map (fun e => e.2)

/-- `RootResource.on_get`: body `'Hello, World!'`, status 200. -/
def RootResource_on_get : Response :=
  { status := 200, body := Json.str "Hello, World!".toList }

/-- `LoginResource.on_get`. -/
def LoginResource_on_get : Response :=
  { status := 200
    body := Json.obj
      [ ("Success".toList, Json.bool true)
      , ("Message".toList, Json.str "Here is the login page".toList) ] }

/-- `LoginResource.on_post`. -/
def LoginResource_on_post : Response :=
  { status := 200
    body := Json.obj
      [ ("Success".toList, Json.bool true)
      , ("Message".toList, Json.str "You have successfully logged in".toList) ] }

/-- `LogoutResource.on_get` (defined in the source but unreachable:
no route maps to it). -/
def LogoutResource_on_get : Response :=
  { status := 200
    body := Json.obj
      [ ("Success".toList, Json.bool true)
      , ("Message".toList, Json.str "You have successfully logged out".toList) ] }

/-- `ProblemCollection.on_get`. -/
def ProblemCollection_on_get : Response :=
  { status := 200
    body := Json.obj
      [ ("Success".toList, Json.bool true)
      , ("Problems".toList, Json.arr [Json.num 1, Json.num 2, Json.num 3]) ] }

/-- `ProblemResource.on_get`. -/
def ProblemResource_on_get : Response :=
  { status := 200
    body := Json.obj
      [ ("Success".toList, Json.bool true)
      , ("Problem".toList, Json.obj [("Name".toList, Json.str "ProblemName".toList)]) ] }

/-- `ProblemResource.on_post`. -/
def ProblemResource_on_post : Response :=
  { status := 200
    body := Json.obj
      [ ("Success".toList, Json.bool true)
      , ("Message".toList, Json.str "You have successfully solved the problem!".toList) ] }

/-- `UserCollection.on_get`. -/
def UserCollection_on_get : Response :=
  { status := 200
    body := Json.obj
      [ ("Success".toList, Json.bool true)
      , ("Competitors".toList,
          Json.arr [Json.num 1, Json.num 2, Json.num 3, Json.num 4, Json.num 5]) ] }

/-- `UserResource.on_get`: `request.params['id']` raises `KeyError`
when the query parameter is absent (an unstructured fault); otherwise
the responder branches on `id == '1'`. -/
def UserResource_on_get (queryId : Option String) : Except Fault Response :=
  match queryId with
  | none => Except.error (Fault.other "KeyError")
  | some id =>
    if id = "1" then
      Except.ok
        { status := 200
          body := Json.obj
            [ ("Success".toList, Json.bool true)
            , ("Competitor".toList,
                Json.obj [ ("Name".toList, Json.str "Name".toList)
                         , ("Points".toList, Json.num 100) ]) ] }
    else
      Except.ok
        { status := 200
          body := Json.obj
            [ ("Success".toList, Json.bool true)
            , ("Competitor".toList,
                Json.obj [ ("Name".toList, Json.str "Name2".toList)
                         , ("Points".toList, Json.num 99) ]) ] }

/-- Responder dispatch for a matched resource: falcon invokes
`on_get`/`on_post` when present and raises `HTTPMethodNotAllowed`
otherwise. -/
def handle (res : Resource) (req : Request) : Except Fault Response :=
  match res, req.method with
  | Resource.root, Method.GET => Except.ok RootResource_on_get
  | Resource.login, Method.GET => Except.ok LoginResource_on_get
  | Resource.login, Method.POST => Except.ok LoginResource_on_post
  | Resource.logout, Method.GET => Except.ok LogoutResource_on_get
  | Resource.problems, Method.GET => Except.ok ProblemCollection_on_get
  | Resource.problem, Method.GET => Except.ok ProblemResource_on_get
  | Resource.problem, Method.POST => Except.ok ProblemResource_on_post
  | Resource.competitors, Method.GET => Except.ok UserCollection_on_get
  | Resource.competitor, Method.GET => UserResource_on_get req.queryId
  | _, _ => Except.error (Fault.http methodNotAllowed)

/-! ## Error translation

`WebApi.register_error_handlers` installs `CatchAllHandler.handle` for
`Exception` and `DoesNotExistHandler.handle` for peewee's
`DoesNotExist`; falcon tries the most recently registered matching
handler first, so `DoesNotExist` maps to `HTTPNotFound`, an
`HTTPError` is re-raised unchanged by `CatchAllHandler.handle`, and
anything else becomes the fixed `HTTPInternalServerError`. -/

/-- Net effect of the installed error handlers on a fault escaping
dispatch. -/
def translate : Fault → HTTPError
  | Fault.doesNotExist => httpNotFound
  | Fault.http e => e
  | Fault.other _ => internalServerError

/-! ## The pipeline -/

/-- Outcome of the pipeline before response formatting. -/
inductive PipeResult where
  | ok (r : Response)
  | err (e : HTTPError)
deriving Repr

/-- Falcon's dispatch for one request, with the middleware declared in
the source order `[PeeweeConnectionMiddleware, AuthMiddleware,
ResponseFormatMiddleware]`: every middleware `process_request` runs
before routing, so the auth gate fires before the route is even
resolved; an unmatched path then raises `HTTPNotFound`; a matched
resource's responder may succeed or fault, and escaping faults go
through `translate`. The second component records whether a resource
responder was invoked. -/
def dispatch (req : Request) : PipeResult × Bool :=
  match AuthMiddleware.process_request req.authorization req.accountId with
  | some e => (PipeResult.err e, false)
  | none =>
    match lookupRoute req.path with
    | none => (PipeResult.err httpNotFound, false)
    | some res =>
      match handle res req with
      | Except.ok r => (PipeResult.ok r, true)
      | Except.error f => (PipeResult.err (translate f), true)

/-- The routing-and-responder stage of `dispatch` alone, i.e. what
falcon does after all `process_request` hooks have passed. -/
def routeAndHandle (req : Request) : PipeResult :=
  match lookupRoute req.path with
  | none => PipeResult.err httpNotFound
  | some res =>
    match handle res req with
    | Except.ok r => PipeResult.ok r
    | Except.error f => PipeResult.err (translate f)

/-! ## Connection-scoping middleware

`PeeweeConnectionMiddleware` opens the pooled connection in
`process_request` and closes it in `process_response` guarded by
`if not database.is_closed()`. Falcon runs `process_response` of every
middleware whose `process_request` was reached, on success and fault
paths alike. The pool is modelled by its observable state: whether the
request-local connection is open, plus acquire/release counters. -/

/-- Observable state of the pooled database handle. -/
structure DBState where
  isOpen : Bool
  acquires : Nat
  releases : Nat
deriving Repr, DecidableEq

/-- `database.connect()`. -/
def DBState.connect (db : DBState) : DBState :=
  { db with isOpen := true, acquires := db.acquires + 1 }

/-- `database.close()`. -/
def DBState.close (db : DBState) : DBState :=
  { db with isOpen := false, releases := db.releases + 1 }

/-- `database.is_closed()`. -/
def DBState.is_closed (db : DBState) : Bool :=
  !db.isOpen

namespace PeeweeConnectionMiddleware

/-- `PeeweeConnectionMiddleware.process_request`: open a connection. -/
def process_request (db : DBState) : DBState :=
  db.connect

/-- `PeeweeConnectionMiddleware.process_response`:
`if not database.is_closed(): database.close()`. -/
def process_response (db : DBState) : DBState :=
  if !(db.is_closed) then db.close else db

end PeeweeConnectionMiddleware

/-- How one request can conclude, as far as the connection scope is
concerned: responder success, responder fault, auth rejection, or a
responder that itself closed the connection mid-request. -/
inductive RequestOutcome where
  | success
  | handlerFault
  | authRejected
  | handlerClosedConnection
deriving Repr, DecidableEq

/-- Effect of the responder phase on the connection for a given
outcome: only a responder that closes the connection itself touches
it (auth rejection skips the responder entirely). -/
def handlerPhase (db : DBState) : RequestOutcome → DBState
  | RequestOutcome.handlerClosedConnection => db.close
  | _ => db

/-- One full request through the connection-scoping middleware:
pre-phase acquire, responder phase, post-phase release (falcon runs
`process_response` on every exit path). -/
def runRequest (db : DBState) (o : RequestOutcome) : DBState :=
  PeeweeConnectionMiddleware.process_response
    (handlerPhase (PeeweeConnectionMiddleware.process_request db) o)

/-! ## Data model

`User`, `Problem`, `Solution` from the peewee models, with
`Solution.user` back-references flattened into `User.solutions`. -/

/-- The `Problem` model. -/
structure Problem where
  name : String
  description : String
  points : Int
  test_file_hash : String
deriving Repr, DecidableEq

/-- One `Solution` row of a given user: its referenced problem, the
hash of the last uploaded file, and the solved flag. -/
structure Solution where
  problem : Problem
  last_attempt : String
  solved : Bool
deriving Repr, DecidableEq

/-- The `User` model with its `solutions` back-reference set. -/
structure User where
  username : String
  solutions : List Solution
deriving Repr, DecidableEq

/-- Embedding of `User.get_points`:
`return sum([x.problem.points for x in self.solutions])`. -/
def User.get_points (u : User) : Int :=
  (u.solutions.map (fun x => x.problem.points)).sum

/-- Modelled from the spec: the derived score of an account is "the
sum of Challenge.points over all Submissions belonging to that Account
where solved = true" (spec section 3). -/
def derivedScore (u : User) : Int :=
  ((u.solutions.filter (fun x => x.solved)).map (fun x => x.problem.points)).sum

/-- ChallengeA of the spec's score scenario: worth 10 points. -/
def challengeA : Problem :=
  { name := "ChallengeA", description := "A", points := 10, test_file_hash := "ha" }

/-- ChallengeB of the spec's score scenario: worth 20 points. -/
def challengeB : Problem :=
  { name := "ChallengeB", description := "B", points := 20, test_file_hash := "hb" }

/-- The spec's score-scenario account: one solved submission on
ChallengeA, one unsolved submission on ChallengeB. -/
def scoreScenarioAccount : User :=
  { username := "competitor1"
    solutions :=
      [ { problem := challengeA, last_attempt := "h1", solved := true }
      , { problem := challengeB, last_attempt := "h2", solved := false } ] }

/-! ## JSON serialisation

Embedding of Python's `json.dumps` as called by
`ResponseFormatMiddleware.process_response`: default separators
`', '` and `': '`, `ensure_ascii=True` escaping. -/

/-- Character of a decimal digit `d < 10`. -/
def digitChar (d : Nat) : Char :=
  Char.ofNat (48 + d)

/-- Decimal digit of a character in `'0'..'9'`. -/
def charDigit (c : Char) : Nat :=
  c.toNat - 48

/-- Character of a hexadecimal digit `d < 16`, lower case as produced
by Python's `\uXXXX` escapes. -/
def hexDigitChar (d : Nat) : Char :=
  if d < 10 then Char.ofNat (48 + d) else Char.ofNat (87 + d)

/-- Decimal rendering of a natural number. -/
def natChars (m : Nat) : List Char :=
  if m = 0 then ['0'] else ((Nat.digits 10 m).map digitChar).reverse

/-- Decimal rendering of an integer, as `json.dumps` prints `int`. -/
def intChars (n : Int) : List Char :=
  if n < 0 then '-' :: natChars n.natAbs else natChars n.toNat

/-- A `\uXXXX` escape for a code unit `n < 0x10000`. -/
def uEscape (n : Nat) : List Char :=
  ['\\', 'u', hexDigitChar (n / 4096 % 16), hexDigitChar (n / 256 % 16),
   hexDigitChar (n / 16 % 16), hexDigitChar (n % 16)]

/-- Escaping of one character, following Python's `ensure_ascii`
serialisation: the two-character shorthands, `\uXXXX` for other
characters outside `0x20..0x7e`, and surrogate pairs beyond the basic
multilingual plane. -/
def escapeChar (c : Char) : List Char :=
  if c = '"' then ['\\', '"']
  else if c = '\\' then ['\\', '\\']
  else if c = '\n' then ['\\', 'n']
  else if c = '\t' then ['\\', 't']
  else if c = '\r' then ['\\', 'r']
  else if c = '\x08' then ['\\', 'b']
  else if c = '\x0c' then ['\\', 'f']
  else if c.toNat < 32 then uEscape c.toNat
  else if c.toNat < 127 then [c]
  else if c.toNat < 65536 then uEscape c.toNat
  else uEscape (55296 + (c.toNat - 65536) / 1024) ++ uEscape (56320 + (c.toNat - 65536) % 1024)

/-- Escaping of a whole string body. -/
def escapeString : List Char → List Char
  | [] => []
  | c :: cs => escapeChar c ++ escapeString cs

mutual

/-- Embedding of `json.dumps` on a structured value, with the default
separators `', '` (items) and `': '` (keys). -/
def dumps : Json → List Char
  | Json.null => ['n', 'u', 'l', 'l']
  | Json.bool true => ['t', 'r', 'u', 'e']
  | Json.bool false => ['f', 'a', 'l', 's', 'e']
  | Json.num n => intChars n
  | Json.str s => '"' :: (escapeString s ++ ['"'])
  | Json.arr xs => '[' :: (dumpsArr xs ++ [']'])
  | Json.obj ms => '\x7b' :: (dumpsObj ms ++ ['\x7d'])

/-- Array items joined by `', '`. -/
def dumpsArr : List Json → List Char
  | [] => []
  | [x] => dumps x
  | x :: y :: xs => dumps x ++ ',' :: ' ' :: dumpsArr (y :: xs)

/-- Object members joined by `', '`, each as `"key": value`. -/
def dumpsObj : List (List Char × Json) → List Char
  | [] => []
  | [m] => '"' :: (escapeString m.1 ++ '"' :: ':' :: ' ' :: dumps m.2)
  | m :: f :: ms =>
      ('"' :: (escapeString m.1 ++ '"' :: ':' :: ' ' :: dumps m.2))
        ++ ',' :: ' ' :: dumpsObj (f :: ms)

end

/-- A formatted response: the content type set by the formatter and
the serialised body on the wire. -/
structure Formatted where
  content_type : String
  wire : List Char
deriving Repr, DecidableEq

namespace ResponseFormatMiddleware

/-- Embedding of `ResponseFormatMiddleware.process_response`: set
`content_type` and replace the body by `json.dumps(response.body)`. -/
def process_response (r : Response) : Formatted :=
  { content_type := "application/json; charset=utf-8"
    wire := dumps r.body }

end ResponseFormatMiddleware

/-! ## A JSON decoder

Specification-side decoder used to state the round-trip property of
the formatter. It handles exactly the texts `dumps` emits for
payloads whose strings need no escaping (which covers every payload
the resources produce). -/

/-- Does a character serialise to itself: printable ASCII that is
neither the quote nor the backslash. -/
def charOk (c : Char) : Bool :=
  decide (32 ≤ c.toNat) && decide (c.toNat ≤ 126) && !(c == '"') && !(c == '\\')

/-- All characters of a string body serialise to themselves. -/
def strOk (s : List Char) : Bool :=
  s.all charOk

mutual

/-- Every string and key of the value serialises without escapes. -/
def jsonOk : Json → Bool
  | Json.null => true
  | Json.bool _ => true
  | Json.num _ => true
  | Json.str s => strOk s
  | Json.arr xs => jsonOkArr xs
  | Json.obj ms => jsonOkObj ms

/-- `jsonOk` over array elements. -/
def jsonOkArr : List Json → Bool
  | [] => true
  | x :: xs => jsonOk x && jsonOkArr xs

/-- `jsonOk` over object members. -/
def jsonOkObj : List (List Char × Json) → Bool
  | [] => true
  | m :: ms => strOk m.1 && jsonOk m.2 && jsonOkObj ms

end

/-- Split off the longest prefix not containing a quote. -/
def takeUntilQuote : List Char → List Char × List Char
  | [] => ([], [])
  | c :: cs =>
    if c = '"' then ([], c :: cs)
    else
      let p := takeUntilQuote cs
      (c :: p.1, p.2)

/-- Split off the longest prefix of decimal digits. -/
def takeDigits : List Char → List Char × List Char
  | [] => ([], [])
  | c :: cs =>
    if c.isDigit then
      let p := takeDigits cs
      (c :: p.1, p.2)
    else ([], c :: cs)

/-- Value of a big-endian list of digit characters. -/
def digitsVal (ds : List Char) : Nat :=
  Nat.ofDigits 10 ((ds.map charDigit).reverse)

/-- Does the text not begin with a digit (so that a maximal-munch
number parse cannot run past a value boundary). -/
def headNotDigit : List Char → Bool
  | [] => true
  | c :: _ => !c.isDigit

mutual

/-- Fuel-indexed JSON value decoder; returns the decoded value and the
unconsumed remainder of the text. -/
def parseJ : Nat → List Char → Option (Json × List Char)
  | 0, _ => none
  | _ + 1, [] => none
  | n + 1, c :: cs =>
    if c = 'n' then
      if cs.take 3 = ['u', 'l', 'l'] then some (Json.null, cs.drop 3) else none
    else if c = 't' then
      if cs.take 3 = ['r', 'u', 'e'] then some (Json.bool true, cs.drop 3) else none
    else if c = 'f' then
      if cs.take 4 = ['a', 'l', 's', 'e'] then some (Json.bool false, cs.drop 4) else none
    else if c = '"' then
      match takeUntilQuote cs with
      | (s, _ :: r) => some (Json.str s, r)
      | (_, []) => none
    else if c = '[' then
      if cs.head? = some ']' then some (Json.arr [], cs.tail)
      else
        match parseElems n cs with
        | some q => some (Json.arr q.1, q.2)
        | none => none
    else if c = '\x7b' then
      if cs.head? = some '\x7d' then some (Json.obj [], cs.tail)
      else
        match parseMembers n cs with
        | some q => some (Json.obj q.1, q.2)
        | none => none
    else if c = '-' then
      match takeDigits cs with
      | ([], _) => none
      | (ds, r) => some (Json.num (-(Int.ofNat (digitsVal ds))), r)
    else if c.isDigit then
      match takeDigits cs with
      | (ds, r) => some (Json.num (Int.ofNat (digitsVal (c :: ds))), r)
    else none

/-- Decoder for the items of a non-empty array, up to and including
the closing bracket. -/
def parseElems : Nat → List Char → Option (List Json × List Char)
  | 0, _ => none
  | n + 1, cs =>
    match parseJ n cs with
    | none => none
    | some (v, cs1) =>
      match cs1 with
      | ']' :: r => some ([v], r)
      | ',' :: ' ' :: cs2 =>
        match parseElems n cs2 with
        | none => none
        | some (vs, r) => some (v :: vs, r)
      | _ => none

/-- Decoder for the members of a non-empty object, up to and including
the closing brace. -/
def parseMembers : Nat → List Char → Option (List (List Char × Json) × List Char)
  | 0, _ => none
  | n + 1, cs =>
    match cs with
    | '"' :: cs0 =>
      match takeUntilQuote cs0 with
      | (k, _ :: cs1) =>
        if cs1.take 2 = [':', ' '] then
          match parseJ n (cs1.drop 2) with
          | none => none
          | some (v, cs2) =>
            match cs2 with
            | '\x7d' :: r => some ([(k, v)], r)
            | ',' :: ' ' :: cs3 =>
              match parseMembers n cs3 with
              | none => none
              | some (ms, r) => some ((k, v) :: ms, r)
            | _ => none
        else none
      | (_, []) => none
    | _ => none

end

/-! ## Helper lemmas -/

theorem charDigit_digitChar (d : Nat) (h : d < 10) : charDigit (digitChar d) = d := by
  interval_cases d <;> decide

theorem digitChar_isDigit (d : Nat) (h : d < 10) : (digitChar d).isDigit = true := by
  interval_cases d <;> decide

theorem natChars_ne_nil (m : Nat) : natChars m ≠ [] := by
  unfold natChars
  split
  · simp
  · next h =>
    simp [Nat.digits_ne_nil_iff_ne_zero, h]

theorem natChars_all_digits (m : Nat) : ∀ c ∈ natChars m, c.isDigit = true := by
  intro c hc
  unfold natChars at hc
  split at hc
  · simp at hc
    subst hc
    decide
  · simp only [List.mem_reverse, List.mem_map] at hc
    obtain ⟨d, hd, rfl⟩ := hc
    exact digitChar_isDigit d (Nat.digits_lt_base (by norm_num) hd)

theorem digitsVal_natChars (m : Nat) : digitsVal (natChars m) = m := by
  unfold natChars digitsVal
  split
  · next h => subst h; decide
  · rw [List.map_reverse, List.reverse_reverse, List.map_map]
    have heq : (Nat.digits 10 m).map (charDigit ∘ digitChar) = (Nat.digits 10 m).map id := by
      apply List.map_congr_left
      intro d hd
      simp [charDigit_digitChar d (Nat.digits_lt_base (by norm_num) hd)]
    rw [heq, List.map_id, Nat.ofDigits_digits]

theorem takeDigits_of_append (ds rest : List Char) (hds : ∀ c ∈ ds, c.isDigit = true)
    (hrest : headNotDigit rest = true) : takeDigits (ds ++ rest) = (ds, rest) := by
  induction ds with
  | nil =>
    simp only [List.nil_append]
    cases rest with
    | nil => rfl
    | cons c cs =>
      unfold takeDigits
      simp only [headNotDigit, Bool.not_eq_true'] at hrest
      simp [hrest]
  | cons c cs ih =>
    have hc := hds c (by simp)
    unfold takeDigits
    simp [hc, ih (fun c' hc' => hds c' (by simp [hc']))]

theorem takeUntilQuote_of_append (s r : List Char) (hs : ∀ c ∈ s, ¬(c = '"')) :
    takeUntilQuote (s ++ '"' :: r) = (s, '"' :: r) := by
  induction s with
  | nil => simp [takeUntilQuote]
  | cons c cs ih =>
    unfold takeUntilQuote
    simp [hs c (by simp), ih (fun c' h => hs c' (by simp [h]))]

theorem escapeChar_of_charOk (c : Char) (h : charOk c = true) : escapeChar c = [c] := by
  unfold charOk at h
  simp only [Bool.and_eq_true, decide_eq_true_eq, Bool.not_eq_true', beq_eq_false_iff_ne,
    ne_eq] at h
  obtain ⟨⟨⟨h1, h2⟩, h3⟩, h4⟩ := h
  unfold escapeChar
  rw [if_neg h3, if_neg h4,
      if_neg (by rintro rfl; exact absurd h1 (by decide)),
      if_neg (by rintro rfl; exact absurd h1 (by decide)),
      if_neg (by rintro rfl; exact absurd h1 (by decide)),
      if_neg (by rintro rfl; exact absurd h1 (by decide)),
      if_neg (by rintro rfl; exact absurd h1 (by decide)),
      if_neg (by omega), if_pos (by omega)]

theorem escapeString_of_strOk (s : List Char) (h : strOk s = true) : escapeString s = s := by
  induction s with
  | nil => rfl
  | cons c cs ih =>
    unfold strOk at h
    simp only [List.all_cons, Bool.and_eq_true] at h
    unfold escapeString
    rw [escapeChar_of_charOk c h.1, ih h.2]
    rfl

theorem strOk_no_quote (s : List Char) (h : strOk s = true) : ∀ c ∈ s, ¬(c = '"') := by
  intro c hc heq
  subst heq
  unfold strOk at h
  rw [List.all_eq_true] at h
  exact absurd (h _ hc) (by decide)

theorem json_sizeOf_pos (v : Json) : 0 < sizeOf v := by
  cases v <;> simp_arith

theorem list_sizeOf_pos {α : Type} [SizeOf α] (l : List α) : 0 < sizeOf l := by
  cases l <;> simp_arith

theorem dumps_cons (v : Json) : ∃ c t, dumps v = c :: t ∧ ¬(c = ']') := by
  cases v with
  | null => exact ⟨'n', ['u', 'l', 'l'], rfl, by decide⟩
  | bool b =>
    cases b with
    | false => exact ⟨'f', ['a', 'l', 's', 'e'], rfl, by decide⟩
    | true => exact ⟨'t', ['r', 'u', 'e'], rfl, by decide⟩
  | num n =>
    show ∃ c t, intChars n = c :: t ∧ ¬(c = ']')
    unfold intChars
    split
    · exact ⟨'-', natChars n.natAbs, rfl, by decide⟩
    · obtain ⟨c, t, hct⟩ := List.exists_cons_of_ne_nil (natChars_ne_nil n.toNat)
      refine ⟨c, t, hct, ?_⟩
      have hd : c.isDigit = true := natChars_all_digits _ c (by rw [hct]; simp)
      rintro rfl
      exact absurd hd (by decide)
  | str s => exact ⟨'"', escapeString s ++ ['"'], rfl, by decide⟩
  | arr xs => exact ⟨'[', dumpsArr xs ++ [']'], rfl, by decide⟩
  | obj ms => exact ⟨'\x7b', dumpsObj ms ++ ['\x7d'], rfl, by decide⟩

theorem parseJ_digit (n : Nat) (c : Char) (cs ds r : List Char) (h : c.isDigit = true)
    (htd : takeDigits cs = (ds, r)) :
    parseJ (n + 1) (c :: cs) = some (Json.num (Int.ofNat (digitsVal (c :: ds))), r) := by
  have hn : ¬(c = 'n') := by rintro rfl; exact absurd h (by decide)
  have ht : ¬(c = 't') := by rintro rfl; exact absurd h (by decide)
  have hf : ¬(c = 'f') := by rintro rfl; exact absurd h (by decide)
  have hq : ¬(c = '"') := by rintro rfl; exact absurd h (by decide)
  have hb : ¬(c = '[') := by rintro rfl; exact absurd h (by decide)
  have hm : ¬(c = '\x7b') := by rintro rfl; exact absurd h (by decide)
  have hd : ¬(c = '-') := by rintro rfl; exact absurd h (by decide)
  simp [parseJ, hn, ht, hf, hq, hb, hm, hd, h, htd]

theorem parseJ_neg (n : Nat) (cs ds r : List Char) (hds : ds ≠ [])
    (htd : takeDigits cs = (ds, r)) :
    parseJ (n + 1) ('-' :: cs) = some (Json.num (-(Int.ofNat (digitsVal ds))), r) := by
  obtain ⟨c, t, rfl⟩ := List.exists_cons_of_ne_nil hds
  simp [parseJ, htd]

theorem dumpsArr_cons (x : Json) (xs : List Json) :
    ∃ t, dumpsArr (x :: xs) = dumps x ++ t := by
  cases xs with
  | nil => exact ⟨[], by simp [dumpsArr]⟩
  | cons y ys => exact ⟨',' :: ' ' :: dumpsArr (y :: ys), rfl⟩

theorem parse_dumps_all (n : Nat) :
    (∀ v rest, jsonOk v = true → headNotDigit rest = true → sizeOf v ≤ n →
        parseJ n (dumps v ++ rest) = some (v, rest)) ∧
    (∀ xs rest, xs ≠ [] → jsonOkArr xs = true → sizeOf xs ≤ n →
        parseElems n (dumpsArr xs ++ ']' :: rest) = some (xs, rest)) ∧
    (∀ ms rest, ms ≠ [] → jsonOkObj ms = true → sizeOf ms ≤ n →
        parseMembers n (dumpsObj ms ++ '\x7d' :: rest) = some (ms, rest)) := by
  induction n with
  | zero =>
    refine ⟨?_, ?_, ?_⟩
    · intro v _ _ _ hsz
      exact absurd hsz (by have := json_sizeOf_pos v; omega)
    · intro xs _ _ _ hsz
      exact absurd hsz (by have := list_sizeOf_pos xs; omega)
    · intro ms _ _ _ hsz
      exact absurd hsz (by have := list_sizeOf_pos ms; omega)
  | succ m ih =>
    obtain ⟨ihV, ihA, ihO⟩ := ih
    refine ⟨?_, ?_, ?_⟩
    · intro v rest hok hnd hsz
      cases v with
      | null => simp [dumps, parseJ]
      | bool b => cases b <;> simp [dumps, parseJ]
      | num k =>
        show parseJ (m + 1) (intChars k ++ rest) = some (Json.num k, rest)
        unfold intChars
        split
        · next hneg =>
          have htd : takeDigits (natChars k.natAbs ++ rest) = (natChars k.natAbs, rest) :=
            takeDigits_of_append _ _ (natChars_all_digits _) hnd
          rw [List.cons_append, parseJ_neg m _ _ _ (natChars_ne_nil _) htd,
            digitsVal_natChars]
          have hcast : (Int.ofNat k.natAbs) = -k := by
            rw [Int.ofNat_eq_natCast]
            omega
          rw [hcast]
          simp
        · next hpos =>
          obtain ⟨c, t, hct⟩ := List.exists_cons_of_ne_nil (natChars_ne_nil k.toNat)
          have hall := natChars_all_digits k.toNat
          have htd : takeDigits (t ++ rest) = (t, rest) :=
            takeDigits_of_append _ _ (fun c' hc' => hall c' (by rw [hct]; simp [hc'])) hnd
          rw [hct, List.cons_append,
            parseJ_digit m c _ _ _ (hall c (by rw [hct]; simp)) htd,
            show c :: t = natChars k.toNat from hct.symm, digitsVal_natChars]
          have hcast : (Int.ofNat k.toNat) = k := by
            rw [Int.ofNat_eq_natCast]
            omega
          rw [hcast]
      | str s =>
        have hok' : strOk s = true := by simpa [jsonOk] using hok
        have htq : takeUntilQuote (s ++ '"' :: rest) = (s, '"' :: rest) :=
          takeUntilQuote_of_append s rest (strOk_no_quote s hok')
        show parseJ (m + 1) (('"' :: (escapeString s ++ ['"'])) ++ rest)
          = some (Json.str s, rest)
        rw [escapeString_of_strOk s hok']
        simp only [List.cons_append, List.append_assoc, List.singleton_append]
        simp [parseJ, htq]
      | arr xs =>
        cases xs with
        | nil => simp [dumps, dumpsArr, parseJ]
        | cons x xs' =>
          obtain ⟨t, ht⟩ := dumpsArr_cons x xs'
          obtain ⟨c, t', hct, hcne⟩ := dumps_cons x
          have hhead : (dumpsArr (x :: xs') ++ ']' :: rest).head? = some c := by
            rw [ht, hct]
            simp
          have hok' : jsonOkArr (x :: xs') = true := by simpa [jsonOk] using hok
          have hsz' : sizeOf (x :: xs' : List Json) ≤ m := by
            simp only [Json.arr.sizeOf_spec] at hsz
            omega
          have hQ := ihA (x :: xs') rest (by simp) hok' hsz'
          show parseJ (m + 1) (('[' :: (dumpsArr (x :: xs') ++ [']'])) ++ rest)
            = some (Json.arr (x :: xs'), rest)
          simp only [List.cons_append, List.append_assoc, List.singleton_append]
          simp [parseJ, hhead, hQ, hcne]
      | obj ms =>
        cases ms with
        | nil => simp [dumps, dumpsObj, parseJ]
        | cons e ms' =>
          have hok' : jsonOkObj (e :: ms') = true := by simpa [jsonOk] using hok
          have hsz' : sizeOf (e :: ms') ≤ m := by
            simp only [Json.obj.sizeOf_spec] at hsz
            omega
          have hR := ihO (e :: ms') rest (by simp) hok' hsz'
          have hhead : (dumpsObj (e :: ms') ++ '\x7d' :: rest).head? = some '"' := by
            cases ms' <;> simp [dumpsObj]
          show parseJ (m + 1) (('\x7b' :: (dumpsObj (e :: ms') ++ ['\x7d'])) ++ rest)
            = some (Json.obj (e :: ms'), rest)
          simp only [List.cons_append, List.append_assoc, List.singleton_append]
          simp [parseJ, hhead, hR]
    · intro xs rest hne hok hsz
      cases xs with
      | nil => exact absurd rfl hne
      | cons v xs' =>
        cases xs' with
        | nil =>
          have hokv : jsonOk v = true := by simpa [jsonOkArr] using hok
          have hszv : sizeOf v ≤ m := by
            simp only [List.cons.sizeOf_spec, List.nil.sizeOf_spec] at hsz
            omega
          have hP := ihV v (']' :: rest) hokv (by rfl) hszv
          have harg : dumpsArr [v] ++ ']' :: rest = dumps v ++ ']' :: rest := by
            simp [dumpsArr]
          rw [harg]
          simp [parseElems, hP]
        | cons w ws =>
          have hokv : jsonOk v = true ∧ jsonOkArr (w :: ws) = true := by
            simpa [jsonOkArr, Bool.and_eq_true] using hok
          have hpv := json_sizeOf_pos v
          have hpw := json_sizeOf_pos w
          have hpl := list_sizeOf_pos ws
          have hszv : sizeOf v ≤ m ∧ sizeOf (w :: ws : List Json) ≤ m := by
            simp only [List.cons.sizeOf_spec] at hsz ⊢
            omega
          have hP := ihV v (',' :: ' ' :: (dumpsArr (w :: ws) ++ ']' :: rest)) hokv.1
            (by rfl) hszv.1
          have hQ := ihA (w :: ws) rest (by simp) hokv.2 hszv.2
          have harg : dumpsArr (v :: w :: ws) ++ ']' :: rest
              = dumps v ++ ',' :: ' ' :: (dumpsArr (w :: ws) ++ ']' :: rest) := by
            simp [dumpsArr]
          rw [harg]
          simp [parseElems, hP, hQ]
    · intro ms rest hne hok hsz
      cases ms with
      | nil => exact absurd rfl hne
      | cons e ms' =>
        obtain ⟨k, v⟩ := e
        have hokk : strOk k = true ∧ jsonOk v = true ∧ jsonOkObj ms' = true := by
          simpa [jsonOkObj, Bool.and_eq_true, and_assoc] using hok
        have hks := strOk_no_quote k hokk.1
        have hkp := list_sizeOf_pos k
        cases ms' with
        | nil =>
          have hszv : sizeOf v ≤ m := by
            simp only [List.cons.sizeOf_spec, List.nil.sizeOf_spec,
              Prod.mk.sizeOf_spec] at hsz
            omega
          have hP := ihV v ('\x7d' :: rest) hokk.2.1 (by rfl) hszv
          have htq : takeUntilQuote (k ++ '"' :: ':' :: ' ' :: (dumps v ++ '\x7d' :: rest))
              = (k, '"' :: ':' :: ' ' :: (dumps v ++ '\x7d' :: rest)) :=
            takeUntilQuote_of_append k _ hks
          have harg : dumpsObj [(k, v)] ++ '\x7d' :: rest
              = '"' :: (k ++ '"' :: ':' :: ' ' :: (dumps v ++ '\x7d' :: rest)) := by
            simp [dumpsObj, escapeString_of_strOk k hokk.1]
          rw [harg]
          simp [parseMembers, htq, hP]
        | cons f ms'' =>
          have hpv := json_sizeOf_pos v
          have hpl := list_sizeOf_pos ms''
          have hszs : sizeOf v ≤ m ∧ sizeOf (f :: ms'') ≤ m := by
            simp only [List.cons.sizeOf_spec, Prod.mk.sizeOf_spec] at hsz ⊢
            omega
          have hP := ihV v
            (',' :: ' ' :: (dumpsObj (f :: ms'') ++ '\x7d' :: rest)) hokk.2.1
            (by rfl) hszs.1
          have hR := ihO (f :: ms'') rest (by simp) hokk.2.2 hszs.2
          have htq : takeUntilQuote
              (k ++ '"' :: ':' :: ' '
                :: (dumps v ++ ',' :: ' ' :: (dumpsObj (f :: ms'') ++ '\x7d' :: rest)))
              = (k, '"' :: ':' :: ' '
                :: (dumps v ++ ',' :: ' ' :: (dumpsObj (f :: ms'') ++ '\x7d' :: rest))) :=
            takeUntilQuote_of_append k _ hks
          have harg : dumpsObj ((k, v) :: f :: ms'') ++ '\x7d' :: rest
              = '"' :: (k ++ '"' :: ':' :: ' '
                :: (dumps v ++ ',' :: ' ' :: (dumpsObj (f :: ms'') ++ '\x7d' :: rest))) := by
            simp [dumpsObj, escapeString_of_strOk k hokk.1]
          rw [harg]
          simp [parseMembers, htq, hP, hR]

theorem parseJ_dumps (v : Json) (h : jsonOk v = true) :
    parseJ (sizeOf v) (dumps v) = some (v, []) := by
  have := (parse_dumps_all (sizeOf v)).1 v [] h rfl le_rfl
  simpa using this

/-! ## Pipeline helper lemmas -/

theorem auth_always_rejects (token account_id : Option String) :
    AuthMiddleware.process_request token account_id = some authTokenRequired
      ∨ AuthMiddleware.process_request token account_id = some authenticationRequired := by
  cases token with
  | some s => exact Or.inl rfl
  | none => exact Or.inr rfl

theorem dispatch_never_invokes (req : Request) :
    ∃ e, dispatch req = (PipeResult.err e, false) ∧ e.status = 401 := by
  rcases auth_always_rejects req.authorization req.accountId with h | h
  · exact ⟨authTokenRequired, by unfold dispatch; rw [h], rfl⟩
  · exact ⟨authenticationRequired, by unfold dispatch; rw [h], rfl⟩

theorem runRequest_step (db : DBState) (o : RequestOutcome) :
    (runRequest db o).acquires = db.acquires + 1
      ∧ (runRequest db o).releases = db.releases + 1
      ∧ (runRequest db o).is_closed = true := by
  cases o <;>
    simp [runRequest, handlerPhase, PeeweeConnectionMiddleware.process_request,
      PeeweeConnectionMiddleware.process_response, DBState.connect, DBState.close,
      DBState.is_closed]

/-! ## Claim theorems -/

/-- C1: for every request whose Authorization header is present with a
non-empty token value, `AuthMiddleware.process_request` raises the
AuthTokenRequired `HTTPUnauthorized` — HTTP 401, title "Auth token
required", challenge `Token type="Fernet"`, documentation href — and
the pipeline invokes no resource handler. -/
theorem C1_auth_header_present_rejected (req : Request) (s : String)
    (hauth : req.authorization = some s) (_hne : s ≠ "") :
    AuthMiddleware.process_request req.authorization req.accountId = some authTokenRequired
      ∧ dispatch req = (PipeResult.err authTokenRequired, false)
      ∧ authTokenRequired.status = 401
      ∧ authTokenRequired.title = some "Auth token required"
      ∧ authTokenRequired.challenges = ["Token type=\"Fernet\""]
      ∧ authTokenRequired.href = some "http://docs.example.com/auth" := by
  have h1 : AuthMiddleware.process_request req.authorization req.accountId
      = some authTokenRequired := by
    rw [hauth]
    rfl
  refine ⟨h1, ?_, rfl, rfl, rfl, rfl⟩
  unfold dispatch
  rw [h1]

/-- Witness for C1 at the spec's literal scenario: header
`Authorization: abc`, `Account-Id: 1`. -/
theorem C1_witness :
    AuthMiddleware.process_request (some "abc") (some "1") = some authTokenRequired
      ∧ dispatch { method := Method.GET, path := "/", authorization := some "abc",
                   accountId := some "1", queryId := none }
        = (PipeResult.err authTokenRequired, false) := by
  have h := C1_auth_header_present_rejected
    { method := Method.GET, path := "/", authorization := some "abc",
      accountId := some "1", queryId := none } "abc" rfl (by decide)
  exact ⟨h.1, h.2.1⟩

/-- C2: on the spec's score scenario — one solved submission worth 10,
one unsolved worth 20 — `User.get_points` returns 30, because it sums
`problem.points` over all solutions without filtering on `solved`,
while the spec's derived score is 10. -/
theorem C2_get_points_ignores_solved :
    User.get_points scoreScenarioAccount = 30
      ∧ derivedScore scoreScenarioAccount = 10
      ∧ User.get_points scoreScenarioAccount ≠ derivedScore scoreScenarioAccount := by
  refine ⟨by decide, by decide, by decide⟩

/-- C3 counterexample: `GET /` with no headers does not produce the
200 greeting — the pipeline rejects it with the 401 "Authentication
required" fault before the root responder can run. -/
theorem C3_counterexample :
    dispatch { method := Method.GET, path := "/", authorization := none,
               accountId := none, queryId := none }
      = (PipeResult.err authenticationRequired, false)
      ∧ authenticationRequired.status = 401
      ∧ (dispatch { method := Method.GET, path := "/", authorization := none,
                    accountId := none, queryId := none }).1
        ≠ PipeResult.ok RootResource_on_get := by
  exact ⟨rfl, rfl, fun h => PipeResult.noConfusion h⟩

/-- C3 amended: under the full pipeline `GET /` with no headers is
rejected by the auth gate (401 "Authentication required") and no
handler runs; the root responder itself, when invoked, yields status
200 with the plain greeting, which the formatter serialises as the
JSON string `"Hello, World!"` rather than the Success envelope. -/
theorem C3_amended :
    dispatch { method := Method.GET, path := "/", authorization := none,
               accountId := none, queryId := none }
      = (PipeResult.err authenticationRequired, false)
      ∧ RootResource_on_get.status = 200
      ∧ RootResource_on_get.body = Json.str "Hello, World!".toList
      ∧ (ResponseFormatMiddleware.process_response RootResource_on_get).wire
        = "\"Hello, World!\"".toList := by
  refine ⟨rfl, rfl, rfl, by decide⟩

/-- C4 counterexample: the source's validity predicate accepts the pair
of two present-but-empty headers, which the claim's "both non-empty"
reading declares invalid. -/
theorem C4_counterexample :
    AuthMiddleware.token_is_valid (some "") (some "") = true
      ∧ nonEmptyHeader (some "") = false := by
  decide

/-- C4 amended: `_token_is_valid` accepts a pair iff both headers are
present (`is not None`), with no emptiness check on the values; and
whenever the Authorization header is absent — so the first rejection
did not fire and the pair is necessarily invalid — the request is
rejected with the 401 "Authentication required" fault and no handler
runs. -/
theorem C4_amended :
    (∀ token account_id : Option String,
        AuthMiddleware.token_is_valid token account_id
          = (token.isSome && account_id.isSome))
      ∧ (∀ account_id : Option String,
          AuthMiddleware.token_is_valid none account_id = false)
      ∧ (∀ req : Request, req.authorization = none →
          dispatch req = (PipeResult.err authenticationRequired, false)) := by
  refine ⟨fun t a => rfl, fun a => rfl, ?_⟩
  intro req h
  unfold dispatch AuthMiddleware.process_request
  rw [h]
  rfl

/-- Witness for C4 amended at a concrete header-less request. -/
theorem C4_amended_witness :
    dispatch { method := Method.GET, path := "/login", authorization := none,
               accountId := some "1", queryId := none }
      = (PipeResult.err authenticationRequired, false) :=
  C4_amended.2.2 _ rfl

/-- C5: no route is registered for `/logout` — `register_routes` never
adds it — so a GET of `/logout` reaching the routing stage yields the
NotFound fault, even though `LogoutResource.on_get` (dead code) would
produce the 200 success payload. -/
theorem C5_logout_not_routed :
    lookupRoute "/logout" = none
      ∧ routeAndHandle { method := Method.GET, path := "/logout",
                         authorization := none, accountId := none, queryId := none }
        = PipeResult.err httpNotFound
      ∧ LogoutResource_on_get.status = 200
      ∧ LogoutResource_on_get.body
        = Json.obj
            [ ("Success".toList, Json.bool true)
            , ("Message".toList, Json.str "You have successfully logged out".toList) ] := by
  refine ⟨by decide, rfl, rfl, rfl⟩

/-- C6: each request acquires the pooled connection exactly once and
releases it exactly once whatever the outcome (success, handler fault,
auth rejection, or a handler that closed the connection itself);
releasing an already-released connection is a no-op; and over any mix
of outcomes the acquire count equals the release count. -/
theorem C6_connection_discipline :
    (∀ (db : DBState) (o : RequestOutcome),
        (runRequest db o).acquires = db.acquires + 1
          ∧ (runRequest db o).releases = db.releases + 1)
      ∧ (∀ db : DBState, db.is_closed = true →
          PeeweeConnectionMiddleware.process_response db = db)
      ∧ (∀ (os : List RequestOutcome) (db : DBState),
          db.acquires = db.releases →
          (os.foldl runRequest db).acquires = (os.foldl runRequest db).releases) := by
  refine ⟨fun db o => ⟨(runRequest_step db o).1, (runRequest_step db o).2.1⟩, ?_, ?_⟩
  · intro db h
    unfold PeeweeConnectionMiddleware.process_response
    rw [h]
    rfl
  · intro os
    induction os with
    | nil => intro db h; exact h
    | cons o os ih =>
      intro db h
      have hstep := runRequest_step db o
      exact ih (runRequest db o) (by omega)

/-- Witness for C6: double release is a no-op on a concrete closed
state, and a concrete mix of outcomes keeps the counters balanced. -/
theorem C6_witness :
    PeeweeConnectionMiddleware.process_response
        { isOpen := false, acquires := 3, releases := 3 }
      = { isOpen := false, acquires := 3, releases := 3 }
      ∧ (([RequestOutcome.success, RequestOutcome.authRejected,
            RequestOutcome.handlerFault, RequestOutcome.handlerClosedConnection].foldl
              runRequest { isOpen := false, acquires := 0, releases := 0 }).acquires
          = ([RequestOutcome.success, RequestOutcome.authRejected,
              RequestOutcome.handlerFault, RequestOutcome.handlerClosedConnection].foldl
                runRequest { isOpen := false, acquires := 0, releases := 0 }).releases) :=
  ⟨C6_connection_discipline.2.1 _ rfl, C6_connection_discipline.2.2 _ _ rfl⟩

/-- C7: the installed error handlers translate peewee's `DoesNotExist`
unconditionally to the 404 NotFound fault, re-raise any falcon
`HTTPError` unchanged, and mask every other fault as the fixed-message
500 InternalServerError regardless of the fault's own detail. -/
theorem C7_error_translation :
    translate Fault.doesNotExist = httpNotFound
      ∧ httpNotFound.status = 404
      ∧ (∀ e : HTTPError, translate (Fault.http e) = e)
      ∧ (∀ note : String, translate (Fault.other note) = internalServerError)
      ∧ internalServerError.status = 500
      ∧ internalServerError.description
        = some "An internal error occurred. If this problem persists, please contact us." :=
  ⟨rfl, rfl, fun _ => rfl, fun _ => rfl, rfl, rfl⟩

/-- C8: round-trip of the response formatter — serialising a structured
success payload with `json.dumps` and decoding the wire text yields
the original payload (deep equality); stated for payloads whose
strings serialise without escapes, which covers every payload the
resources produce. -/
theorem C8_formatter_roundtrip (r : Response) (h : jsonOk r.body = true) :
    parseJ (sizeOf r.body) (ResponseFormatMiddleware.process_response r).wire
      = some (r.body, []) :=
  parseJ_dumps r.body h

/-- Witness for C8 at the logout resource's success payload. -/
theorem C8_witness :
    jsonOk LogoutResource_on_get.body = true
      ∧ parseJ (sizeOf LogoutResource_on_get.body)
          (ResponseFormatMiddleware.process_response LogoutResource_on_get).wire
        = some (LogoutResource_on_get.body, []) :=
  ⟨by decide, C8_formatter_roundtrip LogoutResource_on_get (by decide)⟩

/-- C9 counterexample: a request for an unrouted path does not get the
NotFound fault — the auth middleware runs before routing and rejects it
with the 401 "Authentication required" fault instead. -/
theorem C9_counterexample :
    lookupRoute "/nothere" = none
      ∧ dispatch { method := Method.GET, path := "/nothere", authorization := none,
                   accountId := none, queryId := none }
        = (PipeResult.err authenticationRequired, false)
      ∧ authenticationRequired ≠ httpNotFound := by
  refine ⟨by decide, rfl, by decide⟩

/-- C9 amended: route matching is exact-path and an unmatched path
yields the NotFound fault at the routing stage with no handler
invoked; but since every middleware `process_request` runs before
routing and the auth gate rejects all requests, the client observes a
401 auth fault rather than the 404. -/
theorem C9_amended (req : Request) (h : lookupRoute req.path = none) :
    routeAndHandle req = PipeResult.err httpNotFound
      ∧ (dispatch req).2 = false
      ∧ (∃ e, (dispatch req).1 = PipeResult.err e ∧ e.status = 401) := by
  obtain ⟨e, he, hs⟩ := dispatch_never_invokes req
  refine ⟨?_, by rw [he], ⟨e, by rw [he], hs⟩⟩
  unfold routeAndHandle
  rw [h]

/-- Witness for C9 amended at a concrete unrouted path. -/
theorem C9_amended_witness :
    routeAndHandle { method := Method.GET, path := "/static/logo.png",
                     authorization := none, accountId := none, queryId := none }
      = PipeResult.err httpNotFound :=
  (C9_amended { method := Method.GET, path := "/static/logo.png",
                authorization := none, accountId := none, queryId := none } (by decide)).1

/-- C10: for every header pair `AuthMiddleware.process_request` raises
an `HTTPUnauthorized` — AuthTokenRequired when the token is present,
AuthenticationFailed (via `_token_is_valid(None, account_id)` being
false) when it is absent — so the authenticated success path is
unreachable and no resource handler is ever invoked for any request. -/
theorem C10_handler_unreachable :
    (∀ (s : String) (account_id : Option String),
        AuthMiddleware.process_request (some s) account_id = some authTokenRequired)
      ∧ (∀ account_id : Option String,
          AuthMiddleware.token_is_valid none account_id = false
            ∧ AuthMiddleware.process_request none account_id = some authenticationRequired)
      ∧ (∀ req : Request,
          (dispatch req).2 = false
            ∧ ∃ e, (dispatch req).1 = PipeResult.err e ∧ e.status = 401) := by
  refine ⟨fun s a => rfl, fun a => ⟨rfl, rfl⟩, ?_⟩
  intro req
  obtain ⟨e, he, hs⟩ := dispatch_never_invokes req
  exact ⟨by rw [he], ⟨e, by rw [he], hs⟩⟩

end WebServer
